import Mathlib

/-!
Verification development for the avionix excerpt
`src/helm_factory/kubernetes_objects/deployment.py`, together with a model of
the YAML serialization layer (`HelmYaml`) that the excerpt's classes inherit
from but whose code is not part of the excerpt.

The excerpt's classes are pure Python data holders: every `__init__` stores
its arguments unchanged in lowerCamelCase attributes.  We embed the dynamic
Python value world as one inductive type `Obj`: scalars, lists, and
attribute-carrying objects (a class name together with the ordered list of
`(attribute name, value)` pairs that `__init__` assigns, in assignment
order — exactly the object's `__dict__`).  `Obj.pynone` is Python's `None`,
the Absent marker.  `Obj.unsupported` stands for a runtime value the
serializer has no rendering rule for, and `Obj.backref` stands for a
reference back to an object already on the current recursion path (the only
way a traversal of the value world can revisit a node).
-/

/-- Python runtime values, as seen by the excerpt's constructors and the
serializer.  `obj cls fields` is an instance of class `cls` whose `__dict__`
is the ordered association list `fields`. -/
inductive Obj : Type where
  | pynone : Obj
  | pystr : String → Obj
  | pyint : Int → Obj
  | pybool : Bool → Obj
  | pytime : String → Obj
  | pylist : List Obj → Obj
  | obj : String → List (String × Obj) → Obj
  | unsupported : String → Obj
  | backref : Obj

/-- Modelled from the spec: the serializer's two error conditions,
`UnsupportedTypeError` and `CyclicGraphError`. -/
inductive RenderError : Type where
  | unsupportedType : String → RenderError
  | cyclicGraph : RenderError
deriving DecidableEq

/-- One line of the rendered YAML document, before indentation is applied:
a `key: value` pair, a `key:` header introducing a nested block, a `- value`
sequence item, a bare `-` introducing a nested block item, or a bare scalar. -/
inductive LineContent : Type where
  | kv : String → String → LineContent
  | keyHeader : String → LineContent
  | item : String → LineContent
  | itemHeader : LineContent
  | scalarLine : String → LineContent
deriving DecidableEq

/-- The Absent marker test: a field holding Python `None` is absent. -/
def isAbsent : Obj → Bool
  | Obj.pynone => true
  | _ => false

/-- Modelled from the spec: the scalar literal for a scalar value (string,
number, boolean, timestamp, null), `none` for non-scalars. -/
def scalarText : Obj → Option String
  | Obj.pynone => some "null"
  | Obj.pystr s => some s
  | Obj.pyint n => some (toString n)
  | Obj.pybool b => some (if b then "true" else "false")
  | Obj.pytime t => some t
  | _ => none

/-- Modelled from the spec: the inline form of an empty collection. -/
def emptyFor : Obj → String
  | Obj.pylist _ => "[]"
  | _ => "\x7b\x7d"

/-- Modelled from the spec: the lines a present field `k` with value `v`
contributes at depth `d`, given the already-rendered lines `sub` of `v`
(which live at depth `d + 1`). -/
def fieldBlock (d : Nat) (k : String) (v : Obj) (sub : List (Nat × LineContent)) :
    List (Nat × LineContent) :=
  match scalarText v with
  | some s => [(d, LineContent.kv k s)]
  | none => if sub.isEmpty then [(d, LineContent.kv k (emptyFor v))]
            else (d, LineContent.keyHeader k) :: sub

/-- Modelled from the spec: the lines a sequence element `v` contributes at
depth `d`, given the already-rendered lines `sub` of `v`. -/
def itemBlock (d : Nat) (v : Obj) (sub : List (Nat × LineContent)) :
    List (Nat × LineContent) :=
  match scalarText v with
  | some s => [(d, LineContent.item s)]
  | none => if sub.isEmpty then [(d, LineContent.item (emptyFor v))]
            else (d, LineContent.itemHeader) :: sub

mutual

/-- Modelled from the spec: the `HelmYaml` serializer (not part of the
excerpt).  Renders a value at nesting depth `d` into the ordered list of
lines of the YAML document, following the spec's algorithm: scalars become
scalar literals, sequences become `-` items, objects emit their fields in
declaration order skipping Absent ones, nested content one level deeper.
A value with no rendering rule raises `UnsupportedTypeError`; revisiting an
object on the current recursion path raises `CyclicGraphError`. -/
def renderAt : Nat → Obj → Except RenderError (List (Nat × LineContent))
  | d, Obj.pynone => Except.ok [(d, LineContent.scalarLine "null")]
  | d, Obj.pystr s => Except.ok [(d, LineContent.scalarLine s)]
  | d, Obj.pyint n => Except.ok [(d, LineContent.scalarLine (toString n))]
  | d, Obj.pybool b =>
      Except.ok [(d, LineContent.scalarLine (if b then "true" else "false"))]
  | d, Obj.pytime t => Except.ok [(d, LineContent.scalarLine t)]
  | d, Obj.pylist xs => renderItems d xs
  | d, Obj.obj _ fs => renderFields d fs
  | _, Obj.unsupported tag => Except.error (RenderError.unsupportedType tag)
  | _, Obj.backref => Except.error RenderError.cyclicGraph

/-- Modelled from the spec: render the elements of a sequence at depth `d`. -/
def renderItems : Nat → List Obj → Except RenderError (List (Nat × LineContent))
  | _, [] => Except.ok []
  | d, v :: rest =>
      match renderAt (d + 1) v with
      | Except.error e => Except.error e
      | Except.ok sub =>
          match renderItems d rest with
          | Except.error e => Except.error e
          | Except.ok rs => Except.ok (itemBlock d v sub ++ rs)

/-- Modelled from the spec: render an object's fields in declaration order at
depth `d`, skipping fields holding the Absent marker. -/
def renderFields : Nat → List (String × Obj) → Except RenderError (List (Nat × LineContent))
  | _, [] => Except.ok []
  | d, (k, v) :: rest =>
      if isAbsent v then renderFields d rest
      else
        match renderAt (d + 1) v with
        | Except.error e => Except.error e
        | Except.ok sub =>
            match renderFields d rest with
            | Except.error e => Except.error e
            | Except.ok rs => Except.ok (fieldBlock d k v sub ++ rs)

end

/-- The text of one rendered line: two spaces of indentation per nesting
level, then the line's content. -/
def contentText : LineContent → String
  | LineContent.kv k v => k ++ ": " ++ v
  | LineContent.keyHeader k => k ++ ":"
  | LineContent.item s => "- " ++ s
  | LineContent.itemHeader => "-"
  | LineContent.scalarLine s => s

/-- Render one line of the document to text. -/
def lineText (p : Nat × LineContent) : String :=
  String.join (List.replicate p.1 "  ") ++ contentText p.2

/-- Modelled from the spec: `render(object) -> text`, the serializer's
contract.  Either a complete document is produced or an error is raised and
no output is returned. -/
def render (o : Obj) : Except RenderError String :=
  (renderAt 0 o).map (fun ls => String.intercalate "\n" (ls.map lineText))

/-- The ordered `__dict__` of an object: its fields in declaration
(assignment) order, or `none` for a non-object value. -/
def fieldsOf : Obj → Option (List (String × Obj))
  | Obj.obj _ fs => some fs
  | _ => none

/-- Python attribute access: look an attribute up in the object's ordered
`__dict__`. -/
def getattr (o : Obj) (k : String) : Option Obj :=
  (fieldsOf o).bind fun fs => (fs.find? fun kv => kv.1 == k).map Prod.snd

/-- `RollingUpdateDeployment.__init__` from the source: stores `max_surge`
in `maxSurge` and `max_unavailable` in `maxUnavailable`; both parameters
default to `None`. -/
def RollingUpdateDeployment.init (max_surge : Obj := Obj.pynone)
    (max_unavailable : Obj := Obj.pynone) : Obj :=
  Obj.obj "RollingUpdateDeployment"
    [("maxSurge", max_surge), ("maxUnavailable", max_unavailable)]

/-- `DeploymentStrategy.__init__` from the source: stores `rolling_update`
in `rollingUpdate` and `type` in `type`; both parameters default to `None`. -/
def DeploymentStrategy.init (rolling_update : Obj := Obj.pynone)
    (type : Obj := Obj.pynone) : Obj :=
  Obj.obj "DeploymentStrategy" [("rollingUpdate", rolling_update), ("type", type)]

/-- `DeploymentSpec.__init__` from the source: `template` is required, the
seven other parameters default to `None`; each is stored unchanged in the
lowerCamelCase attribute, in the source's assignment order. -/
def DeploymentSpec.init (template : Obj) (min_ready_seconds : Obj := Obj.pynone)
    (paused : Obj := Obj.pynone) (progress_deadline_seconds : Obj := Obj.pynone)
    (replicas : Obj := Obj.pynone) (revision_history_limit : Obj := Obj.pynone)
    (selector : Obj := Obj.pynone) (strategy : Obj := Obj.pynone) : Obj :=
  Obj.obj "DeploymentSpec"
    [("template", template), ("minReadySeconds", min_ready_seconds),
     ("paused", paused), ("progressDeadlineSeconds", progress_deadline_seconds),
     ("replicas", replicas), ("revisionHistoryLimit", revision_history_limit),
     ("selector", selector), ("strategy", strategy)]

/-- `DeploymentCondition.__init__` from the source: all five parameters are
required; each is stored unchanged in the lowerCamelCase attribute. -/
def DeploymentCondition.init (last_transition_time : Obj) (last_update_time : Obj)
    (message : Obj) (reason : Obj) (type : Obj) : Obj :=
  Obj.obj "DeploymentCondition"
    [("lastTransitionTime", last_transition_time),
     ("lastUpdateTime", last_update_time), ("message", message),
     ("reason", reason), ("type", type)]

/-- `Deployment.__init__` from the source: `metadata` and `spec` are
required, `api_version` defaults to `None` and is passed to
`KubernetesBaseObject.__init__`.  The base class is not part of the excerpt;
modelled from the spec's naming conversion, it stores `api_version` in
`apiVersion`, before the subclass's own assignments. -/
def Deployment.init (metadata : Obj) (spec : Obj)
    (api_version : Obj := Obj.pynone) : Obj :=
  Obj.obj "Deployment"
    [("apiVersion", api_version), ("metadata", metadata), ("spec", spec)]

/-- `DeploymentList.__init__` from the source: `items` and `metadata` are
required, `api_version` defaults to `None` and is passed to
`KubernetesBaseObject.__init__` (modelled from the spec as for
`Deployment`). -/
def DeploymentList.init (items : Obj) (metadata : Obj)
    (api_version : Obj := Obj.pynone) : Obj :=
  Obj.obj "DeploymentList"
    [("apiVersion", api_version), ("items", items), ("metadata", metadata)]

/-- Capitalize the first character of a string. -/
def capitalizeStr (s : String) : String :=
  match s.data with
  | [] => ""
  | c :: cs => String.mk (c.toUpper :: cs)

/-- Split a character list at every occurrence of a separator character. -/
def splitOnChar (sep : Char) : List Char → List (List Char)
  | [] => [[]]
  | c :: cs =>
      let r := splitOnChar sep cs
      if c = sep then [] :: r
      else
        match r with
        | [] => [[c]]
        | p :: ps => (c :: p) :: ps

/-- Modelled from the spec: the pure snake-to-camel wire-name conversion,
`lower_snake_case` to `lowerCamelCase`. -/
def toCamel (s : String) : String :=
  match (splitOnChar '_' s.data).map String.mk with
  | [] => ""
  | p :: rest => p ++ String.join (rest.map capitalizeStr)

mutual

/-- Does a value's tree contain a leaf the serializer has no rendering rule
for, or a reference back onto the recursion path?  Returns the pair
(contains an unsupported value, contains a back reference). -/
def scanObj : Obj → Bool × Bool
  | Obj.pylist xs => scanList xs
  | Obj.obj _ fs => scanFields fs
  | Obj.unsupported _ => (true, false)
  | Obj.backref => (false, true)
  | _ => (false, false)

/-- Scan a list of values, see `scanObj`. -/
def scanList : List Obj → Bool × Bool
  | [] => (false, false)
  | v :: rest =>
      ((scanObj v).1 || (scanList rest).1, (scanObj v).2 || (scanList rest).2)

/-- Scan an ordered field list, see `scanObj`. -/
def scanFields : List (String × Obj) → Bool × Bool
  | [] => (false, false)
  | (_, v) :: rest =>
      ((scanObj v).1 || (scanFields rest).1, (scanObj v).2 || (scanFields rest).2)

end

/-- A value of a type the serializer has no rendering rule for occurs
somewhere in the graph. -/
def containsUnsupported (o : Obj) : Bool := (scanObj o).1

/-- A reference back to an object on the current recursion path occurs
somewhere in the graph. -/
def containsBackref (o : Obj) : Bool := (scanObj o).2

/-- The key a rendered line introduces, if it is a field line. -/
def keyOf : LineContent → Option String
  | LineContent.kv k _ => some k
  | LineContent.keyHeader k => some k
  | _ => none

/-- The keys the rendered lines emit at nesting depth `d`, in order. -/
def keysAt (d : Nat) (ls : List (Nat × LineContent)) : List String :=
  ls.filterMap (fun p => if p.1 = d then keyOf p.2 else none)


/-- Modelled from the spec: the value tree an external YAML parser produces
from the rendered block-style document (the round-trip check's other half;
the parser is not part of the repository). -/
inductive YVal : Type where
  | scalar : String → YVal
  | seq : List YVal → YVal
  | map : List (String × YVal) → YVal

/-- Count the leading spaces of a line. -/
def countSpaces : List Char → Nat
  | ' ' :: cs => countSpaces cs + 1
  | _ => 0

/-- Drop the leading spaces of a line. -/
def dropSpaces : List Char → List Char
  | ' ' :: cs => dropSpaces cs
  | cs => cs

/-- Split one text line of a document into its nesting depth (two spaces per
level) and its content. -/
def splitIndent (l : List Char) : Nat × List Char :=
  (countSpaces l / 2, dropSpaces l)

/-- Split a map line into its key and its inline value: `k: v` gives
`(k, some v)`, a `k:` header gives `(k, none)`, anything else fails. -/
def keySplit (c : List Char) : Option (List Char × Option (List Char)) :=
  let k := c.takeWhile (fun ch => ch ≠ ':')
  match c.dropWhile (fun ch => ch ≠ ':') with
  | [':'] => some (k, none)
  | ':' :: ' ' :: v => some (k, some v)
  | _ => none

mutual

/-- Modelled from the spec: parse one YAML value at depth `d` from the
remaining lines, returning the value and the unconsumed lines.  `fuel`
bounds the recursion. -/
def parseVal : Nat → Nat → List (Nat × List Char) → Option (YVal × List (Nat × List Char))
  | 0, _, _ => none
  | _ + 1, _, [] => none
  | fuel + 1, d, (i, c) :: rest =>
      if i = d then
        if c = ['-'] || ['-', ' '].isPrefixOf c then
          (parseSeq fuel d ((i, c) :: rest)).map (fun p => (YVal.seq p.1, p.2))
        else
          (parseMap fuel d ((i, c) :: rest)).map (fun p => (YVal.map p.1, p.2))
      else none

/-- Modelled from the spec: parse the consecutive `-` items of a block
sequence at depth `d`. -/
def parseSeq : Nat → Nat → List (Nat × List Char) →
    Option (List YVal × List (Nat × List Char))
  | 0, _, _ => none
  | _ + 1, _, [] => some ([], [])
  | fuel + 1, d, (i, c) :: rest =>
      if i = d ∧ c = ['-'] then do
        let p ← parseVal fuel (d + 1) rest
        let q ← parseSeq fuel d p.2
        some (p.1 :: q.1, q.2)
      else if i = d ∧ ['-', ' '].isPrefixOf c then do
        let q ← parseSeq fuel d rest
        some (YVal.scalar (String.mk (c.drop 2)) :: q.1, q.2)
      else some ([], (i, c) :: rest)

/-- Modelled from the spec: parse the consecutive `key: value` and `key:`
entries of a block mapping at depth `d`. -/
def parseMap : Nat → Nat → List (Nat × List Char) →
    Option (List (String × YVal) × List (Nat × List Char))
  | 0, _, _ => none
  | _ + 1, _, [] => some ([], [])
  | fuel + 1, d, (i, c) :: rest =>
      if i = d then
        match keySplit c with
        | some (k, none) => do
            let p ← parseVal fuel (d + 1) rest
            let q ← parseMap fuel d p.2
            some ((String.mk k, p.1) :: q.1, q.2)
        | some (k, some v) => do
            let q ← parseMap fuel d rest
            some ((String.mk k, YVal.scalar (String.mk v)) :: q.1, q.2)
        | none => none
      else some ([], (i, c) :: rest)

end

/-- Modelled from the spec: parse a whole rendered document. -/
def parseYaml (t : String) : Option YVal :=
  let ls := (splitOnChar '\n' t.data).map splitIndent
  match parseVal (2 * ls.length + 2) 0 ls with
  | some (v, []) => some v
  | _ => none

mutual

/-- The parsed view a configuration value should round-trip to: exactly the
non-Absent fields, in order, with scalars as their rendered literals.
Undefined on graphs that do not render. -/
def yamlView : Obj → Option YVal
  | Obj.pynone => some (YVal.scalar "null")
  | Obj.pystr s => some (YVal.scalar s)
  | Obj.pyint n => some (YVal.scalar (toString n))
  | Obj.pybool b => some (YVal.scalar (if b then "true" else "false"))
  | Obj.pytime t => some (YVal.scalar t)
  | Obj.pylist xs => (yamlViewList xs).map YVal.seq
  | Obj.obj _ fs => (yamlViewFields fs).map YVal.map
  | Obj.unsupported _ => none
  | Obj.backref => none

/-- Round-trip view of a sequence, elementwise. -/
def yamlViewList : List Obj → Option (List YVal)
  | [] => some []
  | v :: rest => do
      let a ← yamlView v
      let b ← yamlViewList rest
      some (a :: b)

/-- Round-trip view of an ordered field list: Absent fields dropped. -/
def yamlViewFields : List (String × Obj) → Option (List (String × YVal))
  | [] => some []
  | (k, v) :: rest =>
      if isAbsent v then yamlViewFields rest
      else do
        let a ← yamlView v
        let b ← yamlViewFields rest
        some ((k, a) :: b)

end

/-- Parse the document rendered from a value, `none` when rendering fails. -/
def parseRendered (o : Obj) : Option YVal :=
  match render o with
  | Except.ok t => parseYaml t
  | Except.error _ => none

/-- Modelled from the spec: the excerpt's classes define only `__init__`
(no setters or mutating methods) and the serializer is purely functional, so
a `render` method call returns the receiver unchanged together with the
rendered result.  This is the state-passing translation of calling
`to_yaml` on a configuration object. -/
def renderCall (o : Obj) : Obj × Except RenderError String := (o, render o)

/-- C1: for every class in the excerpt and every tuple of constructor
arguments — arbitrary runtime values, not only strings — construction stores
each argument unchanged in the attribute that is the camel-cased form of the
parameter name, with no validation, computation, or state transition. -/
theorem constructors_store_arguments_unchanged :
    ∀ a b c d e f g h : Obj,
      (getattr (RollingUpdateDeployment.init a b) "maxSurge" = some a
        ∧ getattr (RollingUpdateDeployment.init a b) "maxUnavailable" = some b)
      ∧ (getattr (DeploymentStrategy.init a b) "rollingUpdate" = some a
        ∧ getattr (DeploymentStrategy.init a b) "type" = some b)
      ∧ (getattr (DeploymentSpec.init a b c d e f g h) "template" = some a
        ∧ getattr (DeploymentSpec.init a b c d e f g h) "minReadySeconds" = some b
        ∧ getattr (DeploymentSpec.init a b c d e f g h) "paused" = some c
        ∧ getattr (DeploymentSpec.init a b c d e f g h) "progressDeadlineSeconds" = some d
        ∧ getattr (DeploymentSpec.init a b c d e f g h) "replicas" = some e
        ∧ getattr (DeploymentSpec.init a b c d e f g h) "revisionHistoryLimit" = some f
        ∧ getattr (DeploymentSpec.init a b c d e f g h) "selector" = some g
        ∧ getattr (DeploymentSpec.init a b c d e f g h) "strategy" = some h)
      ∧ (getattr (DeploymentCondition.init a b c d e) "lastTransitionTime" = some a
        ∧ getattr (DeploymentCondition.init a b c d e) "lastUpdateTime" = some b
        ∧ getattr (DeploymentCondition.init a b c d e) "message" = some c
        ∧ getattr (DeploymentCondition.init a b c d e) "reason" = some d
        ∧ getattr (DeploymentCondition.init a b c d e) "type" = some e)
      ∧ (getattr (Deployment.init a b c) "metadata" = some a
        ∧ getattr (Deployment.init a b c) "spec" = some b
        ∧ getattr (Deployment.init a b c) "apiVersion" = some c)
      ∧ (getattr (DeploymentList.init a b c) "items" = some a
        ∧ getattr (DeploymentList.init a b c) "metadata" = some b
        ∧ getattr (DeploymentList.init a b c) "apiVersion" = some c) :=
  fun _ _ _ _ _ _ _ _ =>
    ⟨⟨rfl, rfl⟩, ⟨rfl, rfl⟩, ⟨rfl, rfl, rfl, rfl, rfl, rfl, rfl, rfl⟩,
     ⟨rfl, rfl, rfl, rfl, rfl⟩, ⟨rfl, rfl, rfl⟩, ⟨rfl, rfl, rfl⟩⟩

/-- C2: for every field of every class in the excerpt, the stored attribute
name equals the lowerCamelCase transformation of the declared
lower_snake_case parameter name, and the emitted YAML key equals that wire
identifier. -/
theorem stored_names_are_wire_names :
    (toCamel "max_surge" = "maxSurge"
      ∧ toCamel "max_unavailable" = "maxUnavailable"
      ∧ toCamel "last_transition_time" = "lastTransitionTime"
      ∧ toCamel "last_update_time" = "lastUpdateTime"
      ∧ toCamel "min_ready_seconds" = "minReadySeconds"
      ∧ toCamel "progress_deadline_seconds" = "progressDeadlineSeconds"
      ∧ toCamel "revision_history_limit" = "revisionHistoryLimit"
      ∧ toCamel "rolling_update" = "rollingUpdate")
    ∧ (∀ a b, (fieldsOf (RollingUpdateDeployment.init a b)).map (List.map Prod.fst)
        = some (["max_surge", "max_unavailable"].map toCamel))
    ∧ (∀ a b, (fieldsOf (DeploymentStrategy.init a b)).map (List.map Prod.fst)
        = some (["rolling_update", "type"].map toCamel))
    ∧ (∀ a b c d e f g h, (fieldsOf (DeploymentSpec.init a b c d e f g h)).map (List.map Prod.fst)
        = some (["template", "min_ready_seconds", "paused", "progress_deadline_seconds",
                 "replicas", "revision_history_limit", "selector", "strategy"].map toCamel))
    ∧ (∀ a b c d e, (fieldsOf (DeploymentCondition.init a b c d e)).map (List.map Prod.fst)
        = some (["last_transition_time", "last_update_time", "message", "reason",
                 "type"].map toCamel))
    ∧ (∀ a b c, (fieldsOf (Deployment.init a b c)).map (List.map Prod.fst)
        = some (["api_version", "metadata", "spec"].map toCamel))
    ∧ (∀ a b c, (fieldsOf (DeploymentList.init a b c)).map (List.map Prod.fst)
        = some (["api_version", "items", "metadata"].map toCamel))
    ∧ renderAt 0 (RollingUpdateDeployment.init (Obj.pystr "1") (Obj.pystr "2"))
        = Except.ok [(0, LineContent.kv "maxSurge" "1"),
                     (0, LineContent.kv "maxUnavailable" "2")]
    ∧ renderAt 0 (DeploymentCondition.init (Obj.pytime "t1") (Obj.pytime "t2")
          (Obj.pystr "m") (Obj.pystr "r") (Obj.pystr "ty"))
        = Except.ok [(0, LineContent.kv "lastTransitionTime" "t1"),
                     (0, LineContent.kv "lastUpdateTime" "t2"),
                     (0, LineContent.kv "message" "m"),
                     (0, LineContent.kv "reason" "r"),
                     (0, LineContent.kv "type" "ty")] :=
  ⟨⟨rfl, rfl, rfl, rfl, rfl, rfl, rfl, rfl⟩,
   fun _ _ => rfl, fun _ _ => rfl, fun _ _ _ _ _ _ _ _ => rfl,
   fun _ _ _ _ _ => rfl, fun _ _ _ => rfl, fun _ _ _ => rfl, rfl, rfl⟩

/-- C3: required parameters are non-default arguments of the constructors;
every optional parameter defaults to the Absent marker `None`, a value
distinct from every zero value, so `replicas = 0` is distinguishable from
`replicas` unset. -/
theorem optional_defaults_are_absent :
    (∀ a, getattr (RollingUpdateDeployment.init a) "maxUnavailable" = some Obj.pynone)
    ∧ getattr (RollingUpdateDeployment.init : Obj) "maxSurge" = some Obj.pynone
    ∧ getattr (DeploymentStrategy.init : Obj) "rollingUpdate" = some Obj.pynone
    ∧ getattr (DeploymentStrategy.init : Obj) "type" = some Obj.pynone
    ∧ (∀ t, getattr (DeploymentSpec.init t) "minReadySeconds" = some Obj.pynone
        ∧ getattr (DeploymentSpec.init t) "paused" = some Obj.pynone
        ∧ getattr (DeploymentSpec.init t) "progressDeadlineSeconds" = some Obj.pynone
        ∧ getattr (DeploymentSpec.init t) "replicas" = some Obj.pynone
        ∧ getattr (DeploymentSpec.init t) "revisionHistoryLimit" = some Obj.pynone
        ∧ getattr (DeploymentSpec.init t) "selector" = some Obj.pynone
        ∧ getattr (DeploymentSpec.init t) "strategy" = some Obj.pynone)
    ∧ (∀ m s, getattr (Deployment.init m s) "apiVersion" = some Obj.pynone)
    ∧ (∀ i m, getattr (DeploymentList.init i m) "apiVersion" = some Obj.pynone)
    ∧ (∀ t, getattr (DeploymentSpec.init t Obj.pynone Obj.pynone Obj.pynone (Obj.pyint 0)
          Obj.pynone Obj.pynone Obj.pynone) "replicas" = some (Obj.pyint 0))
    ∧ Obj.pynone ≠ Obj.pyint 0
    ∧ Obj.pynone ≠ Obj.pybool false
    ∧ Obj.pynone ≠ Obj.pystr "" :=
  ⟨fun _ => rfl, rfl, rfl, rfl, fun _ => ⟨rfl, rfl, rfl, rfl, rfl, rfl, rfl⟩,
   fun _ _ => rfl, fun _ _ => rfl, fun _ => rfl,
   fun h => Obj.noConfusion h, fun h => Obj.noConfusion h, fun h => Obj.noConfusion h⟩

/-- C4: rendering `RollingUpdateDeployment(max_surge="30%",
max_unavailable=None)` produces exactly the text `maxSurge: 30%`; the line
list shows the single emitted line, so no `maxUnavailable` key occurs
anywhere in the output. -/
theorem render_rolling_update_scenario :
    render (RollingUpdateDeployment.init (Obj.pystr "30%") Obj.pynone)
        = Except.ok "maxSurge: 30%"
    ∧ renderAt 0 (RollingUpdateDeployment.init (Obj.pystr "30%") Obj.pynone)
        = Except.ok [(0, LineContent.kv "maxSurge" "30%")]
    ∧ keysAt 0 [(0, LineContent.kv "maxSurge" "30%")] = ["maxSurge"] :=
  ⟨rfl, rfl, rfl⟩

/-- C9: configuration objects are immutable after construction: the classes
define no setters or mutating methods, so the state-passing translation of a
`render` call returns the receiver unchanged, every attribute reads the same
after the call, and an object's fields are exactly its construction-time
fields. -/
theorem objects_immutable_after_construction :
    ∀ o : Obj,
      (renderCall o).1 = o
      ∧ (renderCall o).2 = render o
      ∧ (∀ k, getattr (renderCall o).1 k = getattr o k)
      ∧ (∀ cls fs, fieldsOf (Obj.obj cls fs) = some fs) :=
  fun _ => ⟨rfl, rfl, fun _ => rfl, fun _ _ => rfl⟩

/-- C10: the Absent marker is the ordinary `None` value, so explicitly
passing `None` for an optional parameter builds the same object as omitting
that parameter, for every class of the excerpt. -/
theorem explicit_none_equals_omitted :
    (∀ s, RollingUpdateDeployment.init s Obj.pynone = RollingUpdateDeployment.init s)
    ∧ RollingUpdateDeployment.init Obj.pynone Obj.pynone = RollingUpdateDeployment.init
    ∧ (∀ r, DeploymentStrategy.init r Obj.pynone = DeploymentStrategy.init r)
    ∧ DeploymentStrategy.init Obj.pynone Obj.pynone = DeploymentStrategy.init
    ∧ (∀ t, DeploymentSpec.init t Obj.pynone Obj.pynone Obj.pynone Obj.pynone Obj.pynone
          Obj.pynone Obj.pynone = DeploymentSpec.init t)
    ∧ (∀ m s, Deployment.init m s Obj.pynone = Deployment.init m s)
    ∧ (∀ i m, DeploymentList.init i m Obj.pynone = DeploymentList.init i m) :=
  ⟨fun _ => rfl, rfl, fun _ => rfl, rfl, fun _ => rfl, fun _ _ => rfl, fun _ _ => rfl⟩

/-- A representative nested collaborator: a pod template holding metadata
(modelled from the spec's external-collaborator shape: an ordered list of
wire-named fields). -/
def exampleTemplate : Obj :=
  Obj.obj "PodTemplateSpec" [("metadata", Obj.obj "ObjectMeta" [("name", Obj.pystr "web")])]

/-- A representative `DeploymentSpec`: required template, `replicas = 3`, a
strategy nesting a `RollingUpdateDeployment`, every other field Absent. -/
def exampleSpec : Obj :=
  DeploymentSpec.init exampleTemplate Obj.pynone Obj.pynone Obj.pynone (Obj.pyint 3)
    Obj.pynone Obj.pynone
    (DeploymentStrategy.init (RollingUpdateDeployment.init (Obj.pystr "30%") Obj.pynone)
      (Obj.pystr "RollingUpdate"))

/-- The representative object graph of the round-trip property: a
`DeploymentList` with a sequence field holding one `Deployment` whose spec
nests objects three levels deep. -/
def exampleGraph : Obj :=
  DeploymentList.init
    (Obj.pylist [Deployment.init (Obj.obj "ObjectMeta" [("name", Obj.pystr "web")])
      exampleSpec (Obj.pystr "apps/v1")])
    (Obj.obj "ListMeta" [("resourceVersion", Obj.pystr "1")])
    (Obj.pystr "v1")

/-- The parsed tree the round trip must produce: exactly the original
non-Absent fields of `exampleGraph`, in declaration order, values unchanged
(scalars as their rendered literals). -/
def expectedRoundTrip : YVal :=
  YVal.map [("apiVersion", YVal.scalar "v1"),
    ("items", YVal.seq [YVal.map [("apiVersion", YVal.scalar "apps/v1"),
      ("metadata", YVal.map [("name", YVal.scalar "web")]),
      ("spec", YVal.map [("template", YVal.map [("metadata", YVal.map [("name", YVal.scalar "web")])]),
        ("replicas", YVal.scalar "3"),
        ("strategy", YVal.map [("rollingUpdate", YVal.map [("maxSurge", YVal.scalar "30%")]),
          ("type", YVal.scalar "RollingUpdate")])])]]),
    ("metadata", YVal.map [("resourceVersion", YVal.scalar "1")])]

/-- C8: rendering the representative graph and parsing the resulting YAML
yields key/value pairs equal to exactly the original non-Absent fields
(`yamlView` keeps, in order, precisely the fields not holding the Absent
marker), with values unchanged. -/
theorem render_parse_round_trip :
    parseRendered exampleGraph = some expectedRoundTrip
    ∧ yamlView exampleGraph = some expectedRoundTrip := ⟨rfl, rfl⟩

theorem isAbsent_iff (v : Obj) : isAbsent v = true ↔ v = Obj.pynone := by
  cases v <;> simp [isAbsent]

theorem fieldBlock_mem (d : Nat) (k : String) (v : Obj) (sub : List (Nat × LineContent))
    (p : Nat × LineContent) (hp : p ∈ fieldBlock d k v sub) :
    (p.1 = d ∧ keyOf p.2 = some k) ∨ p ∈ sub := by
  unfold fieldBlock at hp
  cases hs : scalarText v with
  | some s => rw [hs] at hp; simp at hp; subst hp; simp [keyOf]
  | none =>
      rw [hs] at hp
      cases he : sub.isEmpty with
      | true => simp [he] at hp; subst hp; simp [keyOf]
      | false =>
          simp [he] at hp
          rcases hp with hp | hp
          · subst hp; simp [keyOf]
          · exact Or.inr hp

theorem itemBlock_mem (d : Nat) (v : Obj) (sub : List (Nat × LineContent))
    (p : Nat × LineContent) (hp : p ∈ itemBlock d v sub) :
    p.1 = d ∨ p ∈ sub := by
  unfold itemBlock at hp
  cases hs : scalarText v with
  | some s => rw [hs] at hp; simp at hp; subst hp; exact Or.inl rfl
  | none =>
      rw [hs] at hp
      cases he : sub.isEmpty with
      | true => simp [he] at hp; subst hp; exact Or.inl rfl
      | false =>
          simp [he] at hp
          rcases hp with hp | hp
          · subst hp; exact Or.inl rfl
          · exact Or.inr hp

mutual

theorem renderAt_depth : ∀ (d : Nat) (o : Obj) (ls : List (Nat × LineContent)),
    renderAt d o = Except.ok ls → ∀ p ∈ ls, d ≤ p.1
  | d, Obj.pynone, ls, h => by
      simp only [renderAt] at h; injection h with h; subst h; simp
  | d, Obj.pystr s, ls, h => by
      simp only [renderAt] at h; injection h with h; subst h; simp
  | d, Obj.pyint n, ls, h => by
      simp only [renderAt] at h; injection h with h; subst h; simp
  | d, Obj.pybool b, ls, h => by
      simp only [renderAt] at h; injection h with h; subst h; simp
  | d, Obj.pytime t, ls, h => by
      simp only [renderAt] at h; injection h with h; subst h; simp
  | d, Obj.pylist xs, ls, h => renderItems_depth d xs ls h
  | d, Obj.obj cls fs, ls, h => renderFields_depth d fs ls h
  | d, Obj.unsupported t, ls, h => by simp [renderAt] at h
  | d, Obj.backref, ls, h => by simp [renderAt] at h

theorem renderItems_depth : ∀ (d : Nat) (xs : List Obj) (ls : List (Nat × LineContent)),
    renderItems d xs = Except.ok ls → ∀ p ∈ ls, d ≤ p.1
  | d, [], ls, h => by
      simp only [renderItems] at h; injection h with h; subst h; simp
  | d, v :: rest, ls, h => by
      simp only [renderItems] at h
      split at h
      · exact absurd h (by simp)
      · next sub hsub =>
          split at h
          · exact absurd h (by simp)
          · next rs hrs =>
              injection h with h; subst h
              intro p hp
              rcases List.mem_append.mp hp with hp | hp
              · rcases itemBlock_mem d v sub p hp with h1 | h1
                · omega
                · have := renderAt_depth (d + 1) v sub hsub p h1; omega
              · exact renderItems_depth d rest rs hrs p hp

theorem renderFields_depth : ∀ (d : Nat) (fs : List (String × Obj)) (ls : List (Nat × LineContent)),
    renderFields d fs = Except.ok ls → ∀ p ∈ ls, d ≤ p.1
  | d, [], ls, h => by
      simp only [renderFields] at h; injection h with h; subst h; simp
  | d, (k, v) :: rest, ls, h => by
      simp only [renderFields] at h
      split at h
      · exact renderFields_depth d rest ls h
      · split at h
        · exact absurd h (by simp)
        · next sub hsub =>
            split at h
            · exact absurd h (by simp)
            · next rs hrs =>
                injection h with h; subst h
                intro p hp
                rcases List.mem_append.mp hp with hp | hp
                · rcases fieldBlock_mem d k v sub p hp with h1 | h1
                  · omega
                  · have := renderAt_depth (d + 1) v sub hsub p h1; omega
                · exact renderFields_depth d rest rs hrs p hp

end

theorem keysAt_append (d : Nat) (a b : List (Nat × LineContent)) :
    keysAt d (a ++ b) = keysAt d a ++ keysAt d b := by
  simp [keysAt, List.filterMap_append]

theorem keysAt_nil_of_deeper (d : Nat) (ls : List (Nat × LineContent))
    (h : ∀ p ∈ ls, d + 1 ≤ p.1) : keysAt d ls = [] := by
  unfold keysAt
  rw [List.filterMap_eq_nil_iff]
  intro p hp
  have hd := h p hp
  have hne : ¬ p.1 = d := by omega
  simp [hne]

theorem keysAt_fieldBlock (d : Nat) (k : String) (v : Obj)
    (sub : List (Nat × LineContent)) (hsub : ∀ p ∈ sub, d + 1 ≤ p.1) :
    keysAt d (fieldBlock d k v sub) = [k] := by
  have h0 : keysAt d sub = [] := keysAt_nil_of_deeper d sub hsub
  unfold fieldBlock
  cases hs : scalarText v with
  | some s => simp [keysAt, keyOf]
  | none =>
      cases he : sub.isEmpty with
      | true => simp [keysAt, keyOf]
      | false =>
          simp only [Bool.false_eq_true, if_false, keysAt, List.filterMap_cons]
          simp [keyOf]
          intro a b hmem had
          exact absurd (hsub (a, b) hmem) (by simp; omega)

theorem key_unique : ∀ (fs : List (String × Obj)) (k : String) (v w : Obj),
    (fs.map Prod.fst).Nodup → (k, v) ∈ fs → (k, w) ∈ fs → v = w
  | [], _, _, _, _, hv, _ => absurd hv (List.not_mem_nil _)
  | (k', u) :: rest, k, v, w, hnd, hv, hw => by
      simp only [List.map_cons, List.nodup_cons] at hnd
      rcases List.mem_cons.mp hv with hv | hv <;> rcases List.mem_cons.mp hw with hw | hw
      · rw [Prod.mk.injEq] at hv hw
        rw [hv.2, hw.2]
      · rw [Prod.mk.injEq] at hv
        exfalso
        exact hnd.1 (hv.1 ▸ List.mem_map_of_mem Prod.fst hw)
      · rw [Prod.mk.injEq] at hw
        exfalso
        exact hnd.1 (hw.1 ▸ List.mem_map_of_mem Prod.fst hv)
      · exact key_unique rest k v w hnd.2 hv hw

theorem renderFields_keys : ∀ (d : Nat) (fs : List (String × Obj)) (ls : List (Nat × LineContent)),
    renderFields d fs = Except.ok ls →
    keysAt d ls = (fs.filter (fun kv => !isAbsent kv.2)).map Prod.fst
  | d, [], ls, h => by
      simp only [renderFields] at h; injection h with h; subst h; simp [keysAt]
  | d, (k, v) :: rest, ls, h => by
      simp only [renderFields] at h
      split at h
      · next habs =>
          rw [renderFields_keys d rest ls h]
          simp [List.filter_cons, habs]
      · next habs =>
          split at h
          · exact absurd h (by simp)
          · next sub hsub =>
              split at h
              · exact absurd h (by simp)
              · next rs hrs =>
                  injection h with h; subst h
                  rw [keysAt_append]
                  rw [keysAt_fieldBlock d k v sub (renderAt_depth (d + 1) v sub hsub)]
                  rw [renderFields_keys d rest rs hrs]
                  simp [List.filter_cons, habs]

/-- C6 general part packaged for reuse below (not a claim theorem). -/
theorem renderObj_keys (d : Nat) (cls : String) (fs : List (String × Obj))
    (ls : List (Nat × LineContent)) (h : renderAt d (Obj.obj cls fs) = Except.ok ls) :
    keysAt d ls = (fs.filter (fun kv => !isAbsent kv.2)).map Prod.fst :=
  renderFields_keys d fs ls (by simpa [renderAt] using h)

/-- C5: for every Configuration Object and every field holding the Absent
marker, the rendered document has no line with that field's wire name as key
at the object's own nesting level, regardless of the field's type. -/
theorem absent_fields_not_emitted (d : Nat) (cls k : String)
    (fs : List (String × Obj)) (ls : List (Nat × LineContent))
    (hnd : (fs.map Prod.fst).Nodup) (hmem : (k, Obj.pynone) ∈ fs)
    (h : renderAt d (Obj.obj cls fs) = Except.ok ls) :
    ∀ p ∈ ls, p.1 = d → keyOf p.2 ≠ some k := by
  intro p hp hpd hk
  have hkeys := renderFields_keys d fs ls (by simpa [renderAt] using h)
  have hkin : k ∈ keysAt d ls := by
    unfold keysAt
    exact List.mem_filterMap.mpr ⟨p, hp, by simp [hpd, hk]⟩
  rw [hkeys] at hkin
  rcases List.mem_map.mp hkin with ⟨⟨k', v⟩, hin, hfst⟩
  rcases List.mem_filter.mp hin with ⟨hinfs, hpres⟩
  simp only at hfst
  have hinfs2 : (k, v) ∈ fs := by rw [← hfst]; exact hinfs
  have hveq : v = Obj.pynone := key_unique fs k v Obj.pynone hnd hinfs2 hmem
  subst hveq
  simp [isAbsent] at hpres

/-- Witness for the omission theorem at Scenario A's object. -/
theorem absent_fields_not_emitted_witness :
    keyOf (0, LineContent.kv "maxSurge" "30%").2 ≠ some "maxUnavailable" :=
  absent_fields_not_emitted 0 "RollingUpdateDeployment" "maxUnavailable"
    [("maxSurge", Obj.pystr "30%"), ("maxUnavailable", Obj.pynone)]
    [(0, LineContent.kv "maxSurge" "30%")]
    (by decide) (by simp) rfl
    (0, LineContent.kv "maxSurge" "30%") (by simp) rfl

/-- Lexicographic (alphabetical) comparison of character lists. -/
def charListLe : List Char → List Char → Bool
  | [], _ => true
  | _ :: _, [] => false
  | a :: as, b :: bs => if a = b then charListLe as bs else decide (a < b)

/-- Alphabetical comparison of strings, used only to state that the
declared field order is not alphabetical. -/
def strLe (a b : String) : Bool := charListLe a.data b.data

/-- The fully populated `DeploymentSpec` used to exhibit the declaration
order of its emitted keys. -/
def exampleFullSpec : Obj :=
  DeploymentSpec.init (Obj.pystr "T") (Obj.pyint 5) (Obj.pybool true)
    (Obj.pyint 600) (Obj.pyint 1) (Obj.pyint 10) (Obj.pystr "S") (Obj.pystr "R")

/-- C6: the keys emitted when rendering a Configuration Object are exactly
its declared (assignment-order) field names restricted to the present
fields, in declared order, whatever subset of fields is Absent; for the
fully populated `DeploymentSpec` this is template, minReadySeconds, paused,
progressDeadlineSeconds, replicas, revisionHistoryLimit, selector, strategy,
which is not alphabetical order. -/
theorem emitted_keys_follow_declaration_order :
    (∀ (d : Nat) (cls : String) (fs : List (String × Obj)) (ls : List (Nat × LineContent)),
        renderAt d (Obj.obj cls fs) = Except.ok ls →
        keysAt d ls = (fs.filter (fun kv => !isAbsent kv.2)).map Prod.fst)
    ∧ (∀ ls, renderAt 0 exampleFullSpec = Except.ok ls →
        keysAt 0 ls = ["template", "minReadySeconds", "paused", "progressDeadlineSeconds",
          "replicas", "revisionHistoryLimit", "selector", "strategy"])
    ∧ ¬ List.Pairwise (fun a b : String => strLe a b = true)
        ["template", "minReadySeconds", "paused", "progressDeadlineSeconds",
         "replicas", "revisionHistoryLimit", "selector", "strategy"] := by
  refine ⟨?_, ?_, ?_⟩
  · intro d cls fs ls h
    exact renderFields_keys d fs ls (by simpa [renderAt] using h)
  · intro ls h
    have h0 : renderAt 0 exampleFullSpec =
        Except.ok [(0, LineContent.kv "template" "T"),
          (0, LineContent.kv "minReadySeconds" "5"),
          (0, LineContent.kv "paused" "true"),
          (0, LineContent.kv "progressDeadlineSeconds" "600"),
          (0, LineContent.kv "replicas" "1"),
          (0, LineContent.kv "revisionHistoryLimit" "10"),
          (0, LineContent.kv "selector" "S"),
          (0, LineContent.kv "strategy" "R")] := rfl
    rw [h0] at h
    injection h with h
    subst h
    rfl
  · decide

/-- Witness for the ordering theorem at the fully populated spec. -/
theorem emitted_keys_follow_declaration_order_witness :
    keysAt 0 [(0, LineContent.kv "template" "T"),
      (0, LineContent.kv "minReadySeconds" "5"),
      (0, LineContent.kv "paused" "true"),
      (0, LineContent.kv "progressDeadlineSeconds" "600"),
      (0, LineContent.kv "replicas" "1"),
      (0, LineContent.kv "revisionHistoryLimit" "10"),
      (0, LineContent.kv "selector" "S"),
      (0, LineContent.kv "strategy" "R")]
      = ["template", "minReadySeconds", "paused", "progressDeadlineSeconds",
         "replicas", "revisionHistoryLimit", "selector", "strategy"] :=
  emitted_keys_follow_declaration_order.2.1 _ rfl

mutual

theorem renderAt_ok_of_clean : ∀ (d : Nat) (o : Obj),
    (scanObj o).1 = false → (scanObj o).2 = false → ∃ ls, renderAt d o = Except.ok ls
  | _, Obj.pynone, _, _ => ⟨_, rfl⟩
  | _, Obj.pystr s, _, _ => ⟨_, rfl⟩
  | _, Obj.pyint n, _, _ => ⟨_, rfl⟩
  | _, Obj.pybool b, _, _ => ⟨_, rfl⟩
  | _, Obj.pytime t, _, _ => ⟨_, rfl⟩
  | d, Obj.pylist xs, h1, h2 => by
      simp only [scanObj] at h1 h2
      obtain ⟨ls, hls⟩ := renderItems_ok_of_clean d xs h1 h2
      exact ⟨ls, by simpa [renderAt] using hls⟩
  | d, Obj.obj cls fs, h1, h2 => by
      simp only [scanObj] at h1 h2
      obtain ⟨ls, hls⟩ := renderFields_ok_of_clean d fs h1 h2
      exact ⟨ls, by simpa [renderAt] using hls⟩
  | _, Obj.unsupported t, h1, _ => by simp [scanObj] at h1
  | _, Obj.backref, _, h2 => by simp [scanObj] at h2

theorem renderItems_ok_of_clean : ∀ (d : Nat) (xs : List Obj),
    (scanList xs).1 = false → (scanList xs).2 = false →
    ∃ ls, renderItems d xs = Except.ok ls
  | _, [], _, _ => ⟨[], rfl⟩
  | d, v :: rest, h1, h2 => by
      simp only [scanList] at h1 h2
      rw [Bool.or_eq_false_iff] at h1 h2
      obtain ⟨sub, hsub⟩ := renderAt_ok_of_clean (d + 1) v h1.1 h2.1
      obtain ⟨rs, hrs⟩ := renderItems_ok_of_clean d rest h1.2 h2.2
      exact ⟨itemBlock d v sub ++ rs, by simp [renderItems, hsub, hrs]⟩

theorem renderFields_ok_of_clean : ∀ (d : Nat) (fs : List (String × Obj)),
    (scanFields fs).1 = false → (scanFields fs).2 = false →
    ∃ ls, renderFields d fs = Except.ok ls
  | _, [], _, _ => ⟨[], rfl⟩
  | d, (k, v) :: rest, h1, h2 => by
      simp only [scanFields] at h1 h2
      rw [Bool.or_eq_false_iff] at h1 h2
      cases habs : isAbsent v with
      | true =>
          obtain ⟨ls, hls⟩ := renderFields_ok_of_clean d rest h1.2 h2.2
          exact ⟨ls, by simp [renderFields, habs, hls]⟩
      | false =>
          obtain ⟨sub, hsub⟩ := renderAt_ok_of_clean (d + 1) v h1.1 h2.1
          obtain ⟨rs, hrs⟩ := renderFields_ok_of_clean d rest h1.2 h2.2
          exact ⟨fieldBlock d k v sub ++ rs, by simp [renderFields, habs, hsub, hrs]⟩

end

mutual

theorem renderAt_unsupported_err : ∀ (d : Nat) (o : Obj),
    (scanObj o).2 = false → (scanObj o).1 = true →
    ∃ t, renderAt d o = Except.error (RenderError.unsupportedType t)
  | _, Obj.pynone, _, h => by simp [scanObj] at h
  | _, Obj.pystr s, _, h => by simp [scanObj] at h
  | _, Obj.pyint n, _, h => by simp [scanObj] at h
  | _, Obj.pybool b, _, h => by simp [scanObj] at h
  | _, Obj.pytime t, _, h => by simp [scanObj] at h
  | d, Obj.pylist xs, hb, hu => by
      simp only [scanObj] at hb hu
      obtain ⟨t, ht⟩ := renderItems_unsupported_err d xs hb hu
      exact ⟨t, by simpa [renderAt] using ht⟩
  | d, Obj.obj cls fs, hb, hu => by
      simp only [scanObj] at hb hu
      obtain ⟨t, ht⟩ := renderFields_unsupported_err d fs hb hu
      exact ⟨t, by simpa [renderAt] using ht⟩
  | _, Obj.unsupported t, _, _ => ⟨t, rfl⟩
  | _, Obj.backref, hb, _ => by simp [scanObj] at hb

theorem renderItems_unsupported_err : ∀ (d : Nat) (xs : List Obj),
    (scanList xs).2 = false → (scanList xs).1 = true →
    ∃ t, renderItems d xs = Except.error (RenderError.unsupportedType t)
  | _, [], _, h => by simp [scanList] at h
  | d, v :: rest, hb, hu => by
      simp only [scanList] at hb hu
      rw [Bool.or_eq_false_iff] at hb
      cases hv : (scanObj v).1 with
      | true =>
          obtain ⟨t, ht⟩ := renderAt_unsupported_err (d + 1) v hb.1 hv
          exact ⟨t, by simp [renderItems, ht]⟩
      | false =>
          have hrest : (scanList rest).1 = true := by rw [hv] at hu; simpa using hu
          obtain ⟨sub, hsub⟩ := renderAt_ok_of_clean (d + 1) v hv hb.1
          obtain ⟨t, ht⟩ := renderItems_unsupported_err d rest hb.2 hrest
          exact ⟨t, by simp [renderItems, hsub, ht]⟩

theorem renderFields_unsupported_err : ∀ (d : Nat) (fs : List (String × Obj)),
    (scanFields fs).2 = false → (scanFields fs).1 = true →
    ∃ t, renderFields d fs = Except.error (RenderError.unsupportedType t)
  | _, [], _, h => by simp [scanFields] at h
  | d, (k, v) :: rest, hb, hu => by
      simp only [scanFields] at hb hu
      rw [Bool.or_eq_false_iff] at hb
      cases habs : isAbsent v with
      | true =>
          have hveq : v = Obj.pynone := (isAbsent_iff v).mp habs
          subst hveq
          have hrest : (scanFields rest).1 = true := by simpa [scanObj] using hu
          obtain ⟨t, ht⟩ := renderFields_unsupported_err d rest hb.2 hrest
          exact ⟨t, by simp [renderFields, isAbsent, ht]⟩
      | false =>
          cases hv : (scanObj v).1 with
          | true =>
              obtain ⟨t, ht⟩ := renderAt_unsupported_err (d + 1) v hb.1 hv
              exact ⟨t, by simp [renderFields, habs, ht]⟩
          | false =>
              have hrest : (scanFields rest).1 = true := by rw [hv] at hu; simpa using hu
              obtain ⟨sub, hsub⟩ := renderAt_ok_of_clean (d + 1) v hv hb.1
              obtain ⟨t, ht⟩ := renderFields_unsupported_err d rest hb.2 hrest
              exact ⟨t, by simp [renderFields, habs, hsub, ht]⟩

end

mutual

theorem renderAt_cyclic_err : ∀ (d : Nat) (o : Obj),
    (scanObj o).1 = false → (scanObj o).2 = true →
    renderAt d o = Except.error RenderError.cyclicGraph
  | _, Obj.pynone, _, h => by simp [scanObj] at h
  | _, Obj.pystr s, _, h => by simp [scanObj] at h
  | _, Obj.pyint n, _, h => by simp [scanObj] at h
  | _, Obj.pybool b, _, h => by simp [scanObj] at h
  | _, Obj.pytime t, _, h => by simp [scanObj] at h
  | d, Obj.pylist xs, hu, hbk => by
      simp only [scanObj] at hu hbk
      have := renderItems_cyclic_err d xs hu hbk
      simpa [renderAt] using this
  | d, Obj.obj cls fs, hu, hbk => by
      simp only [scanObj] at hu hbk
      have := renderFields_cyclic_err d fs hu hbk
      simpa [renderAt] using this
  | _, Obj.unsupported t, hu, _ => by simp [scanObj] at hu
  | _, Obj.backref, _, _ => rfl

theorem renderItems_cyclic_err : ∀ (d : Nat) (xs : List Obj),
    (scanList xs).1 = false → (scanList xs).2 = true →
    renderItems d xs = Except.error RenderError.cyclicGraph
  | _, [], _, h => by simp [scanList] at h
  | d, v :: rest, hu, hbk => by
      simp only [scanList] at hu hbk
      rw [Bool.or_eq_false_iff] at hu
      cases hv : (scanObj v).2 with
      | true =>
          have := renderAt_cyclic_err (d + 1) v hu.1 hv
          simp [renderItems, this]
      | false =>
          have hrest : (scanList rest).2 = true := by rw [hv] at hbk; simpa using hbk
          obtain ⟨sub, hsub⟩ := renderAt_ok_of_clean (d + 1) v hu.1 hv
          have := renderItems_cyclic_err d rest hu.2 hrest
          simp [renderItems, hsub, this]

theorem renderFields_cyclic_err : ∀ (d : Nat) (fs : List (String × Obj)),
    (scanFields fs).1 = false → (scanFields fs).2 = true →
    renderFields d fs = Except.error RenderError.cyclicGraph
  | _, [], _, h => by simp [scanFields] at h
  | d, (k, v) :: rest, hu, hbk => by
      simp only [scanFields] at hu hbk
      rw [Bool.or_eq_false_iff] at hu
      cases habs : isAbsent v with
      | true =>
          have hveq : v = Obj.pynone := (isAbsent_iff v).mp habs
          subst hveq
          have hrest : (scanFields rest).2 = true := by simpa [scanObj] using hbk
          have := renderFields_cyclic_err d rest hu.2 hrest
          simp [renderFields, isAbsent, this]
      | false =>
          cases hv : (scanObj v).2 with
          | true =>
              have := renderAt_cyclic_err (d + 1) v hu.1 hv
              simp [renderFields, habs, this]
          | false =>
              have hrest : (scanFields rest).2 = true := by rw [hv] at hbk; simpa using hbk
              obtain ⟨sub, hsub⟩ := renderAt_ok_of_clean (d + 1) v hu.1 hv
              have := renderFields_cyclic_err d rest hu.2 hrest
              simp [renderFields, habs, hsub, this]

end

/-- C7: the serializer raises `UnsupportedTypeError` if and only if the
traversal meets a value it has no rendering rule for, raises
`CyclicGraphError` if and only if the traversal revisits an object on the
current recursion path (meets a back reference), returns no output in
either error case, and otherwise returns a complete document. -/
theorem serializer_error_conditions :
    ∀ o : Obj,
      (containsBackref o = false →
        ((∃ t, renderAt 0 o = Except.error (RenderError.unsupportedType t)) ↔
          containsUnsupported o = true))
      ∧ (containsUnsupported o = false →
          (renderAt 0 o = Except.error RenderError.cyclicGraph ↔ containsBackref o = true))
      ∧ (containsUnsupported o = false → containsBackref o = false →
          ∃ ls, renderAt 0 o = Except.ok ls ∧
            render o = Except.ok (String.intercalate "\n" (ls.map lineText)))
      ∧ (∀ e, renderAt 0 o = Except.error e → render o = Except.error e) := by
  intro o
  refine ⟨?_, ?_, ?_, ?_⟩
  · intro hb
    constructor
    · rintro ⟨t, ht⟩
      by_contra hcu
      have hcu2 : containsUnsupported o = false := by
        cases h : containsUnsupported o
        · rfl
        · exact absurd h hcu
      obtain ⟨ls, hls⟩ := renderAt_ok_of_clean 0 o hcu2 hb
      rw [hls] at ht
      exact Except.noConfusion ht
    · exact renderAt_unsupported_err 0 o hb
  · intro hu
    constructor
    · intro ht
      by_contra hcb
      have hcb2 : containsBackref o = false := by
        cases h : containsBackref o
        · rfl
        · exact absurd h hcb
      obtain ⟨ls, hls⟩ := renderAt_ok_of_clean 0 o hu hcb2
      rw [hls] at ht
      exact Except.noConfusion ht
    · exact renderAt_cyclic_err 0 o hu
  · intro hu hb
    obtain ⟨ls, hls⟩ := renderAt_ok_of_clean 0 o hu hb
    exact ⟨ls, hls, by simp [render, hls, Except.map]⟩
  · intro e he
    simp [render, he, Except.map]

/-- Witness for the error-condition theorem: a clean graph renders whole. -/
theorem serializer_error_conditions_witness :
    ∃ ls, renderAt 0 (RollingUpdateDeployment.init (Obj.pystr "30%") Obj.pynone)
        = Except.ok ls ∧
      render (RollingUpdateDeployment.init (Obj.pystr "30%") Obj.pynone) =
        Except.ok (String.intercalate "\n" (ls.map lineText)) :=
  (serializer_error_conditions _).2.2.1 rfl rfl
